import Mathlib

/-
  Verification of the rs6502 repository: a cycle-accurate 6502-style CPU
  emulator (src/cpu/src/microcode.rs, src/cpu/src/cpu.rs,
  src/cpu/src/registers.rs, src/src/instructions.rs, src/core/src/opcode.rs)
  and its assembler toolchain (src/asm/src/preprocessor.rs,
  src/asm/src/assembler.rs, src/asm/src/token.rs, src/asm/src/error.rs).

  The Rust code is embedded shallowly:
  - u8 / u16 values are Nat with explicit `% 256` / `% 65536` where the Rust
    type would wrap.  Bare `+` / `-` on Rust machine integers is modelled with
    the wrap-around semantics of release builds; `assert!` failures and
    `panic!`s (which fire in every build profile) are modelled as `none` /
    `Except.error`.
  - The per-instruction scratch `Context` (a 4-byte pushdown stack plus a temp
    register) mirrors microcode.rs `Context`, including the assertion checks
    in `push`, `pop` and `peek`.
  - A `Bus` is a memory function plus the ordered trace of its read/write
    transactions, mirroring the `Bus` trait contract of §4.1 of the spec.
  - Micro-op pipelines are lists of `MicroOp`; `Evaluate` carries the closure
    from the source and one level of fuel bounds the nested dispatch (the
    source's pipelines substitute a plain micro-op, never another Evaluate).
-/

namespace Rs6502

/-! Status flags: registers.rs `StatusFlags` is a u8 bitset built by the
    `bitset!` macro of utility.rs.  We model the raw byte as a Nat.
    Bits: 0 carry, 1 zero, 2 irq_disable, 3 decimal_mode, 4 brk_command,
    6 overflow, 7 negative. -/

/-- utility.rs bitset get accessor: `(self.0 & (1 << bit)) != 0`. -/
def getBit (raw : Nat) (bit : Nat) : Bool :=
  (raw &&& (1 <<< bit)) != 0

/-- utility.rs bitset with accessor: set `self.0 | MASK`, clear `self.0 & !MASK`
    (the u8 complement of the mask is `0xFF ^^^ MASK`). -/
def withBit (raw : Nat) (bit : Nat) (value : Bool) : Nat :=
  if value then raw ||| (1 <<< bit) else raw &&& (0xFF ^^^ (1 <<< bit))

def getCarry (s : Nat) : Bool := getBit s 0
def getZero (s : Nat) : Bool := getBit s 1
def getOverflow (s : Nat) : Bool := getBit s 6
def getNegative (s : Nat) : Bool := getBit s 7
def withCarry (s : Nat) (v : Bool) : Nat := withBit s 0 v
def withZero (s : Nat) (v : Bool) : Nat := withBit s 1 v
def withOverflow (s : Nat) (v : Bool) : Nat := withBit s 6 v
def withNegative (s : Nat) (v : Bool) : Nat := withBit s 7 v

/-- registers.rs `Registers`: A, Y, X, SP are u8, PC is u16. -/
structure Registers where
  acc : Nat
  y : Nat
  x : Nat
  sp : Nat
  pc : Nat
deriving Repr, DecidableEq

/-- cpu.rs `Cpu` state relevant to instruction execution: the register file
    and the raw status byte.  The cycle counter is returned by the run
    functions below instead of being stored, and the pipeline/index pair is
    expressed by running a micro-op list to completion. -/
structure Cpu where
  registers : Registers
  status : Nat
deriving Repr, DecidableEq

/-- registers.rs `Register::<u8>::safe_add`: checked_add / wrapping_add,
    returning the wrapped sum and the carry flag. -/
def safeAdd8 (a b : Nat) : Nat × Bool :=
  ((a + b) % 256, 256 ≤ a + b)

/-- Two's-complement reading of a byte as Rust `as i8`. -/
def toI8 (n : Nat) : Int :=
  if n < 128 then (n : Int) else (n : Int) - 256

/-! The scratch context: microcode.rs `Context`, a 4-byte array `stack`
    indexed downward by `ptr` (empty ⇔ ptr = 4) plus a one-byte temp
    register.  `push`, `pop` and `peek` carry `assert!`s, modelled as
    Option. -/

structure Context where
  temp : Nat
  stack : List Nat
  ptr : Nat
deriving Repr, DecidableEq

def Context.new : Context := ⟨0, [0, 0, 0, 0], 4⟩

/-- `Context::size`: `(SIZE - ptr)`. -/
def Context.size (c : Context) : Nat := 4 - c.ptr

/-- `Context::peek`: asserts `ptr + rel < SIZE`. -/
def Context.peek (c : Context) (rel : Nat) : Option Nat :=
  if c.ptr + rel < 4 then c.stack.get? (c.ptr + rel) else none

/-- `Context::push`: asserts `ptr > 0`, decrements ptr, writes the byte. -/
def Context.push (c : Context) (byte : Nat) : Option Context :=
  if 0 < c.ptr then
    some { c with ptr := c.ptr - 1, stack := c.stack.set (c.ptr - 1) byte }
  else none

/-- `Context::pop`: asserts `ptr < SIZE`, reads the byte, increments ptr. -/
def Context.pop (c : Context) : Option (Nat × Context) :=
  if c.ptr < 4 then
    (c.stack.get? c.ptr).map (fun b => (b, { c with ptr := c.ptr + 1 }))
  else none

/-! The bus: §4.1 / §6 of the spec, bus.rs.  A read returns the byte at the
    address; every transaction is recorded in order in a trace so that the
    observable access sequence can be stated. -/

inductive BusEvent where
  | read (addr value : Nat)
  | write (addr value : Nat)
deriving Repr, DecidableEq

structure Bus where
  mem : Nat → Nat
  trace : List BusEvent

/-- `Bus::read(addr) → u8` (the `% 256` expresses the u8 result type). -/
def Bus.read (b : Bus) (addr : Nat) : Nat × Bus :=
  let v := b.mem addr % 256
  (v, { b with trace := b.trace ++ [BusEvent.read addr v] })

/-- `Bus::write(addr, data)`. -/
def Bus.write (b : Bus) (addr value : Nat) : Bus :=
  { mem := fun a => if a = addr then value else b.mem a,
    trace := b.trace ++ [BusEvent.write addr value] }

/-- Number of reads at a given address in a bus trace. -/
def readsAt (tr : List BusEvent) (addr : Nat) : Nat :=
  (tr.filter (fun e => match e with
    | BusEvent.read a _ => a == addr
    | BusEvent.write _ _ => false)).length

/-! Instruction bodies (src/src/instructions.rs).  Each body is
    `fn(cpu: &mut CPU, ctx: &mut Context)`; scratch-stack assertion failures
    make the result Option.  The `Value` helper chain of instructions.rs is
    inlined step by step. -/

def Impl := Cpu → Context → Option (Cpu × Context)

/-- instructions.rs `Value::carrying_add`: two overflowing u8 additions, the
    status carry is the OR of the two overflow bits. -/
def carryingAdd (lhs status rhs : Nat) : Nat × Nat :=
  let carry := if getCarry status then 1 else 0
  let a := (lhs + rhs) % 256
  let b := 256 ≤ lhs + rhs
  let c := (a + carry) % 256
  let d := 256 ≤ a + carry
  (c, withCarry status (b || d))

/-- instructions.rs `Value::update_zv_flags`: Z from `value == 0` and V from
    `value & 0x80 != 0` (note: V, not N). -/
def updateZvFlags (value status : Nat) : Nat :=
  withOverflow (withZero status (value == 0)) ((value &&& 0x80) != 0)

/-- instructions.rs `Value::update_zn_flags`: Z from `value == 0`, N from
    `(value as i8) < 0` (bit 7). -/
def updateZnFlags (value status : Nat) : Nat :=
  withNegative (withZero status (value == 0)) (value.testBit 7)

/-- `adc_impl`: pops the operand, `carrying_add` then `update_zv_flags`;
    the result replaces A and the whole status byte. -/
def adc_impl : Impl := fun cpu ctx =>
  (ctx.pop).map (fun p =>
    let value := p.1
    let acc := cpu.registers.acc
    let r1 := carryingAdd acc cpu.status value
    let status := updateZvFlags r1.1 r1.2
    ({ cpu with registers := { cpu.registers with acc := r1.1 }, status := status }, p.2))

/-- `lda_impl`: pops the data byte into A.  No flag update appears in the
    source. -/
def lda_impl : Impl := fun cpu ctx =>
  (ctx.pop).map (fun p =>
    ({ cpu with registers := { cpu.registers with acc := p.1 } }, p.2))

/-- `bit_impl`: pops the operand, N := bit 7 of the operand, V := bit 6 of
    the operand, Z from `acc & value == 0`, and pushes the AND result back
    onto the scratch stack. -/
def bit_impl : Impl := fun cpu ctx =>
  (ctx.pop).bind (fun p =>
    let value := p.1
    let acc := cpu.registers.acc
    let b7 := (value &&& 0x80) != 0
    let b6 := (value &&& 0x40) != 0
    let result := acc &&& value
    let status := withZero (withOverflow (withNegative cpu.status b7) b6) (result == 0)
    (p.2.push result).map (fun ctx2 => ({ cpu with status := status }, ctx2)))

/-- `txa_impl`: the source reads the SP register (`cpu.registers.sp.get()`)
    and stores it into A. -/
def txa_impl : Impl := fun cpu ctx =>
  some ({ cpu with registers := { cpu.registers with acc := cpu.registers.sp } }, ctx)

/-- `tya_impl`: the source reads Y and stores it into SP
    (`cpu.registers.sp.set(y)`). -/
def tya_impl : Impl := fun cpu ctx =>
  some ({ cpu with registers := { cpu.registers with sp := cpu.registers.y } }, ctx)

/-- `beq_impl`: pushes the Z flag as a 0/1 byte. -/
def beq_impl : Impl := fun cpu ctx =>
  (ctx.push (if getZero cpu.status then 1 else 0)).map (fun c => (cpu, c))

/-- `jmp_impl`: empty body; the addressing sequence does the work. -/
def jmp_impl : Impl := fun cpu ctx => some (cpu, ctx)

/-! Micro-ops (microcode.rs `MicroOp`) and their single-step execution
    (`MicroOp::execute`), which returns the number of bus cycles consumed. -/

inductive MicroOp where
  | Unimplemented
  | EmptyCycle
  | EmptyNoCycle
  | LoadIncrPC
  | StoreDecrSP
  | IncrLoadSP
  | PushAcc
  | PushZero
  | PushPCL
  | PushPCH
  | PopJump
  | PopLoadAddress
  | PeekLoadAddress
  | PopStoreAddress
  | PopTemp
  | PushTemp
  | IncrTemp
  | AddTempX
  | Execute (f : Cpu → Context → Option (Cpu × Context))
  | Evaluate (f : Cpu → Context → Option ((Cpu × Context) × MicroOp))

/-- `MicroOp::execute`: one micro-op against cpu, scratch context and bus,
    yielding the new state and the cycles consumed (0 or 1).  `Evaluate`
    dispatches the returned micro-op; the fuel argument bounds that nesting
    (the source pipelines return a plain micro-op, so fuel 1 always
    suffices). -/
def MicroOp.exec : Nat → MicroOp → Cpu → Context → Bus → Option (Cpu × Context × Bus × Nat)
  | _, MicroOp.Unimplemented, _, _, _ => none
  | _, MicroOp.EmptyCycle, cpu, ctx, bus => some (cpu, ctx, bus, 1)
  | _, MicroOp.EmptyNoCycle, cpu, ctx, bus => some (cpu, ctx, bus, 0)
  | _, MicroOp.LoadIncrPC, cpu, ctx, bus =>
    let pc := cpu.registers.pc
    let rb := bus.read pc
    (ctx.push rb.1).map (fun ctx2 =>
      ({ cpu with registers := { cpu.registers with pc := (pc + 1) % 65536 } }, ctx2, rb.2, 1))
  | _, MicroOp.StoreDecrSP, cpu, ctx, bus =>
    let sp := cpu.registers.sp
    let address := sp * 256
    (ctx.pop).map (fun p =>
      ({ cpu with registers := { cpu.registers with sp := (sp + 255) % 256 } }, p.2,
        bus.write address p.1, 1))
  | _, MicroOp.IncrLoadSP, cpu, ctx, bus =>
    let sp := (cpu.registers.sp + 1) % 256
    let address := sp * 256
    let rb := bus.read address
    (ctx.push rb.1).map (fun ctx2 =>
      ({ cpu with registers := { cpu.registers with sp := sp } }, ctx2, rb.2, 1))
  | _, MicroOp.PushAcc, cpu, ctx, bus =>
    (ctx.push cpu.registers.acc).map (fun ctx2 => (cpu, ctx2, bus, 0))
  | _, MicroOp.PushZero, cpu, ctx, bus =>
    (ctx.push 0).map (fun ctx2 => (cpu, ctx2, bus, 0))
  | _, MicroOp.PushPCL, cpu, ctx, bus =>
    (ctx.push (cpu.registers.pc % 256)).map (fun ctx2 => (cpu, ctx2, bus, 0))
  | _, MicroOp.PushPCH, cpu, ctx, bus =>
    (ctx.push (cpu.registers.pc / 256 % 256)).map (fun ctx2 => (cpu, ctx2, bus, 0))
  | _, MicroOp.PopJump, cpu, ctx, bus =>
    (ctx.pop).bind (fun hp => (hp.2.pop).map (fun lp =>
      ({ cpu with registers := { cpu.registers with pc := lp.1 + hp.1 * 256 } },
        lp.2, bus, 0)))
  | _, MicroOp.PopLoadAddress, cpu, ctx, bus =>
    (ctx.pop).bind (fun hp => (hp.2.pop).bind (fun lp =>
      let rb := bus.read (lp.1 + hp.1 * 256)
      (lp.2.push rb.1).map (fun ctx3 => (cpu, ctx3, rb.2, 1))))
  | _, MicroOp.PeekLoadAddress, cpu, ctx, bus =>
    (ctx.peek 0).bind (fun hi => (ctx.peek 1).bind (fun lo =>
      let rb := bus.read (lo + hi * 256)
      (ctx.push rb.1).map (fun ctx2 => (cpu, ctx2, rb.2, 1))))
  | _, MicroOp.PopStoreAddress, cpu, ctx, bus =>
    (ctx.pop).bind (fun vp => (vp.2.pop).bind (fun hp => (hp.2.pop).map (fun lp =>
      (cpu, lp.2, bus.write (lp.1 + hp.1 * 256) vp.1, 1))))
  | _, MicroOp.PopTemp, cpu, ctx, bus =>
    (ctx.pop).map (fun p => (cpu, { p.2 with temp := p.1 }, bus, 0))
  | _, MicroOp.PushTemp, cpu, ctx, bus =>
    (ctx.push ctx.temp).map (fun ctx2 => (cpu, ctx2, bus, 0))
  | _, MicroOp.IncrTemp, cpu, ctx, bus =>
    some (cpu, { ctx with temp := (ctx.temp + 1) % 256 }, bus, 0)
  | _, MicroOp.AddTempX, cpu, ctx, bus =>
    some (cpu, { ctx with temp := (safeAdd8 ctx.temp cpu.registers.x).1 }, bus, 0)
  | _, MicroOp.Execute f, cpu, ctx, bus =>
    (f cpu ctx).map (fun p => (p.1, p.2, bus, 0))
  | 0, MicroOp.Evaluate _, _, _, _ => none
  | fuel + 1, MicroOp.Evaluate f, cpu, ctx, bus =>
    (f cpu ctx).bind (fun r => MicroOp.exec fuel r.2 r.1.1 r.1.2 bus)

/-- Run a pipeline to completion (cpu.rs `Cpu::cycle` iterating the installed
    micro-op list in order), accumulating the cycle counts. -/
def runOps : List MicroOp → Cpu → Context → Bus → Option (Cpu × Context × Bus × Nat)
  | [], cpu, ctx, bus => some (cpu, ctx, bus, 0)
  | op :: rest, cpu, ctx, bus =>
    (MicroOp.exec 8 op cpu ctx bus).bind (fun r =>
      (runOps rest r.1 r.2.1 r.2.2.1).map (fun s =>
        (s.1, s.2.1, s.2.2.1, r.2.2.2 + s.2.2.2)))

/-- cpu.rs `step_instruction` given the decoded micro-op sequence of the
    fetched opcode (opcode.rs `decode_instruction`): the fetch reads the
    opcode byte at PC, increments PC, charges one cycle, resets the scratch
    context, then the pipeline runs to completion. -/
def runInstruction (ucode : List MicroOp) (cpu : Cpu) (bus : Bus) :
    Option (Cpu × Context × Bus × Nat) :=
  let pc := cpu.registers.pc
  let rb := bus.read pc
  let cpu2 := { cpu with registers := { cpu.registers with pc := (pc + 1) % 65536 } }
  (runOps ucode cpu2 Context.new rb.2).map (fun r =>
    (r.1, r.2.1, r.2.2.1, r.2.2.2 + 1))

/-! The addressing-mode pipelines of microcode.rs used by the claims, with
    the `Evaluate` closures carried over verbatim.  The register parameter of
    the indexed macros becomes a selector function. -/

def regX (cpu : Cpu) : Nat := cpu.registers.x
def regY (cpu : Cpu) : Nat := cpu.registers.y

/-- microcode.rs `single_byte_implied!`. -/
def single_byte_implied (f : Impl) : List MicroOp :=
  [MicroOp.EmptyCycle, MicroOp.Execute f]

/-- microcode.rs `load_immediate!`. -/
def load_immediate (f : Impl) : List MicroOp :=
  [MicroOp.LoadIncrPC, MicroOp.Execute f]

/-- microcode.rs `load_zero_page!`. -/
def load_zero_page (f : Impl) : List MicroOp :=
  [MicroOp.LoadIncrPC, MicroOp.PushZero, MicroOp.PopLoadAddress, MicroOp.Execute f]

/-- microcode.rs `load_absolute!`. -/
def load_absolute (f : Impl) : List MicroOp :=
  [MicroOp.LoadIncrPC, MicroOp.LoadIncrPC, MicroOp.PopLoadAddress, MicroOp.Execute f]

/-- microcode.rs `load_absolute_indexed!`: the first Evaluate pops the base
    address, adds the index register to the low byte and checks the carry;
    on a page cross it pushes the effective address back and spends an
    EmptyCycle (the second Evaluate then does PopLoadAddress), otherwise it
    dispatches PopLoadAddress at once — without pushing the effective
    address back. -/
def load_absolute_indexed (f : Impl) (reg : Cpu → Nat) : List MicroOp :=
  [MicroOp.LoadIncrPC,
   MicroOp.LoadIncrPC,
   MicroOp.Evaluate (fun cpu ctx =>
     (ctx.pop).bind (fun bahp => (bahp.2.pop).bind (fun balp =>
       let bah := bahp.1
       let bal := balp.1
       let s := safeAdd8 (reg cpu) bal
       let lo := s.1
       let hi := (bah + (if s.2 then 1 else 0)) % 256
       if hi ≠ bah then
         (balp.2.push lo).bind (fun c1 => (c1.push hi).map (fun c2 =>
           ((cpu, c2), MicroOp.EmptyCycle)))
       else
         some ((cpu, balp.2), MicroOp.PopLoadAddress)))),
   MicroOp.Evaluate (fun cpu ctx =>
     some ((cpu, ctx),
       if ctx.size == 2 then MicroOp.PopLoadAddress else MicroOp.EmptyNoCycle)),
   MicroOp.Execute f]

/-- microcode.rs `branch_relative!`: the body pushes the branch condition;
    the first Evaluate pops condition and offset, stores the condition in
    temp, and if taken computes the new PC low byte with
    `overflowing_add` / `overflowing_sub` on PCL; on overflow the high byte
    is `pch.wrapping_add(overflow as u8)` (an addition in both directions)
    followed by an EmptyCycle and the second Evaluate pops the new PC. -/
def branch_relative (f : Impl) : List MicroOp :=
  [MicroOp.LoadIncrPC,
   MicroOp.Execute f,
   MicroOp.Evaluate (fun cpu ctx =>
     (ctx.pop).bind (fun rp => (rp.2.pop).bind (fun op =>
       let result := rp.1
       let offset := toI8 op.1
       let ctx2 := { op.2 with temp := result }
       if result == 0 then
         some ((cpu, ctx2), MicroOp.EmptyNoCycle)
       else
         let pcl := cpu.registers.pc % 256
         let pch := cpu.registers.pc / 256 % 256
         let r : Nat × Bool :=
           if 0 ≤ offset then
             ((pcl + offset.toNat) % 256, 256 ≤ pcl + offset.toNat)
           else
             ((pcl + 256 - (-offset).toNat) % 256, pcl < (-offset).toNat)
         if r.2 then
           (ctx2.push r.1).bind (fun c1 => (c1.push ((pch + 1) % 256)).map (fun c2 =>
             ((cpu, c2), MicroOp.EmptyCycle)))
         else
           (ctx2.push r.1).bind (fun c1 => (c1.push pch).map (fun c2 =>
             ((cpu, c2), MicroOp.PopJump)))))),
   MicroOp.Evaluate (fun cpu ctx =>
     some ((cpu, ctx),
       if ctx.temp == 0 then MicroOp.EmptyNoCycle
       else if ctx.size == 0 then MicroOp.EmptyNoCycle
       else MicroOp.PopJump))]

/-- microcode.rs `jump_indirect!`: fetches the two pointer bytes, peeks the
    pointer to fetch the jump-target low byte, then the Evaluate increments
    only the pointer low byte (`ial + 1`, a u8 addition) before fetching the
    high byte. -/
def jump_indirect (f : Impl) : List MicroOp :=
  [MicroOp.LoadIncrPC,
   MicroOp.LoadIncrPC,
   MicroOp.PeekLoadAddress,
   MicroOp.Evaluate (fun cpu ctx =>
     (ctx.pop).bind (fun lp => (lp.2.pop).bind (fun iahp => (iahp.2.pop).bind (fun ialp =>
       (ialp.2.push lp.1).bind (fun c1 =>
         (c1.push ((ialp.1 + 1) % 256)).bind (fun c2 =>
           (c2.push iahp.1).map (fun c3 =>
             ((cpu, c3), MicroOp.PopLoadAddress)))))))),
   MicroOp.Execute f,
   MicroOp.PopJump]

end Rs6502

namespace Rs6502

/-! Concrete machine states used by the CPU claims.  `mkCpu` builds a
    register file; buses are memory functions with an empty starting trace. -/

def mkCpu (acc y x sp pc status : Nat) : Cpu :=
  { registers := { acc := acc, y := y, x := x, sp := sp, pc := pc }, status := status }

/-- State for C2: program `LDA #$00` (opcode 0xA9 at $0400, operand 0x00 at
    $0401), all registers and flags initially clear. -/
def c2cpu : Cpu := mkCpu 0 0 0 0 0x0400 0

def c2bus : Bus :=
  { mem := fun a => if a = 0x0400 then 0xA9 else 0, trace := [] }

/-- State for C3: X = 5, SP = 7, Y = 3, A = 0. -/
def c3cpu : Cpu := mkCpu 0 3 5 7 0x0400 0

def c3busTxa : Bus := { mem := fun _ => 0x8A, trace := [] }

def c3busTya : Bus := { mem := fun _ => 0x98, trace := [] }

/-- State for C4, first part: A = 0x80, C = 0, program `ADC #$80`. -/
def c4cpuA : Cpu := mkCpu 0x80 0 0 0 0x0400 0

def c4busA : Bus :=
  { mem := fun a => if a = 0x0401 then 0x80 else 0x69, trace := [] }

/-- State for C4, second part: A = 0x7F, C = 0, program `ADC #$01` (the
    spec's own boundary example 0x7F + 0x01 = 0x80). -/
def c4cpuB : Cpu := mkCpu 0x7F 0 0 0 0x0400 0

def c4busB : Bus :=
  { mem := fun a => if a = 0x0401 then 0x01 else 0x69, trace := [] }

/-- State for C5: program `BIT $10` (opcode 0x24, zero-page), operand byte
    0xC0 at $0010, A = 0xFF. -/
def c5cpu : Cpu := mkCpu 0xFF 0 0 0 0x0400 0

def c5bus : Bus :=
  { mem := fun a => if a = 0x0401 then 0x10 else if a = 0x10 then 0xC0 else 0x24,
    trace := [] }

/-- State for C6, no page cross: program `LDA $1000,X` (opcode 0xBD) with
    X = 0. -/
def c6cpuNoCross : Cpu := mkCpu 0 0 0 0 0x0400 0

def c6busNoCross : Bus :=
  { mem := fun a => if a = 0x0401 then 0x00 else if a = 0x0402 then 0x10 else 0xBD,
    trace := [] }

/-- State for C6, page cross: program `LDA $10FF,X` with X = 1 and the byte
    0x42 at the effective address $1100 (the spec's seed scenario 3). -/
def c6cpuCross : Cpu := mkCpu 0 0 1 0 0x0400 0

def c6busCross : Bus :=
  { mem := fun a =>
      if a = 0x0401 then 0xFF else if a = 0x0402 then 0x10
      else if a = 0x1100 then 0x42 else 0xBD,
    trace := [] }

/-- State for C7: a taken `BEQ` (opcode 0xF0, Z = 1) at the start of page
    $02 with offset byte 0x80 (−128). -/
def c7cpu : Cpu := mkCpu 0 0 0 0 0x0200 (withZero 0 true)

def c7bus : Bus :=
  { mem := fun a => if a = 0x0201 then 0x80 else 0xF0, trace := [] }

end Rs6502

namespace Rs6502

/-- Claim C2 (code bug): the spec says every read instruction updates Z and N
    from its result, so `LDA #$00` must set Z = 1 and N = 0.  In the source,
    `lda_impl` only stores the popped byte into A and never touches the
    status register: running `LDA #$00` from an all-clear status leaves
    Z = 0 (and N = 0), contradicting the claimed Z = 1. -/
theorem c2_lda_immediate_zero_leaves_z_clear :
    (runInstruction (load_immediate lda_impl) c2cpu c2bus).map
        (fun r => (getZero r.1.status, getNegative r.1.status, r.1.registers.acc))
      = some (false, false, 0) := by
  rfl

/-- Claim C3 (code bug): TXA must copy X into A and TYA must copy Y into A.
    In the source, `txa_impl` reads the SP register into A, and `tya_impl`
    writes Y into SP leaving A untouched.  With A = 0, Y = 3, X = 5, SP = 7:
    TXA produces A = 7 (the SP value, not X = 5), and TYA leaves A = 0 while
    overwriting SP with 3. -/
theorem c3_txa_tya_copy_wrong_registers :
    ((runInstruction (single_byte_implied txa_impl) c3cpu c3busTxa).map
        (fun r => (r.1.registers.acc, r.1.registers.x, r.1.registers.sp))
      = some (7, 5, 7))
    ∧ ((runInstruction (single_byte_implied tya_impl) c3cpu c3busTya).map
        (fun r => (r.1.registers.acc, r.1.registers.y, r.1.registers.sp))
      = some (0, 3, 3)) := by
  exact ⟨rfl, rfl⟩

/-- Claim C4 (code bug): after ADC the V flag must be the signed-overflow
    condition and the spec's example 0x7F + 0x01 = 0x80 must give N = 1.  The
    source computes the flags with `update_zv_flags`, which sets V to bit 7
    of the result and never touches N.  Hence ADC with A = 0x80, M = 0x80,
    C = 0 (signed overflow: −128 + −128) yields V = 0 where the claim
    requires V = 1; and the example 0x7F + 0x01 yields
    (A, C, V, N, Z) = (0x80, 0, 1, 0, 0) where the claim requires N = 1. -/
theorem c4_adc_overflow_flag_is_result_bit7 :
    ((runInstruction (load_immediate adc_impl) c4cpuA c4busA).map
        (fun r => (r.1.registers.acc, getCarry r.1.status, getOverflow r.1.status,
                   getNegative r.1.status, getZero r.1.status))
      = some (0, true, false, false, true))
    ∧ ((runInstruction (load_immediate adc_impl) c4cpuB c4busB).map
        (fun r => (r.1.registers.acc, getCarry r.1.status, getOverflow r.1.status,
                   getNegative r.1.status, getZero r.1.status))
      = some (0x80, false, true, false, false)) := by
  exact ⟨rfl, rfl⟩

/-- Claim C5 (code bug): the scratch-context stack depth must be 0 when the
    pipeline empties, and BIT is specified to push nothing.  In the source,
    `bit_impl` pushes the AND result back onto the scratch stack and the
    zero-page BIT pipeline (`load_zero_page!(bit_impl)`, opcode 0x24) ends
    with that Execute, so the instruction finishes with depth 1. -/
theorem c5_bit_leaves_scratch_stack_nonempty :
    (runInstruction (load_zero_page bit_impl) c5cpu c5bus).map
        (fun r => r.2.1.size)
      = some 1 := by
  rfl

/-- Claim C6 (code bug): an absolute-indexed read without a page cross must
    cost 4 cycles and read once at the effective address.  In the source's
    `load_absolute_indexed!`, the no-cross branch of the first Evaluate
    returns `PopLoadAddress` without pushing the effective address back onto
    the scratch stack, so `PopLoadAddress` pops an empty stack and the
    `assert!(ptr < SIZE)` in `Context::pop` fails: `LDA $1000,X` with X = 0
    panics instead of completing.  The page-cross path works: `LDA $10FF,X`
    with X = 1 loads the byte at $1100, costs 5 cycles, and the bus trace
    holds exactly one read at $1100. -/
theorem c6_absolute_indexed_no_cross_pops_empty_stack :
    (runInstruction (load_absolute_indexed lda_impl regX) c6cpuNoCross c6busNoCross
      = none)
    ∧ ((runInstruction (load_absolute_indexed lda_impl regX) c6cpuCross c6busCross).map
        (fun r => (r.1.registers.acc, r.2.2.2, readsAt r.2.2.1.trace 0x1100))
      = some (0x42, 5, 1)) := by
  exact ⟨rfl, rfl⟩

/-- Claim C7 (code bug): a taken branch must land at the post-fetch PC plus
    the sign-extended offset (offset −128 from the start of a page lands 128
    bytes below, in the previous page) and cost 3 or 4 cycles.  In the
    source's `branch_relative!`, a borrow out of the PC low byte is patched
    with `pch.wrapping_add(overflow as u8)`: the high byte is incremented
    instead of decremented.  A taken BEQ at $0200 with offset 0x80 (−128)
    lands at $0382 instead of the claimed $0182 = $0202 − 128, and costs 3
    cycles instead of the claimed 4. -/
theorem c7_branch_negative_page_cross_adds_to_pch :
    (runInstruction (branch_relative beq_impl) c7cpu c7bus).map
        (fun r => (r.1.registers.pc, r.2.2.2))
      = some (0x0382, 3) := by
  rfl

end Rs6502

namespace Rs6502

/-- State for C8: the CPU about to execute the 3-byte indirect JMP whose
    opcode byte sits at $0400 (so the pointer operand is at $0401/$0402). -/
def c8cpu : Cpu := mkCpu 0 0 0 0 0x0400 0

/-- Symbolic execution of `jump_indirect!` from `c8cpu` over an arbitrary
    memory: the target low byte is fetched at the pointer, the target high
    byte at the pointer with only its low byte incremented (a u8 addition),
    and the instruction costs 5 cycles. -/
theorem jumpIndirectRun (m : Nat → Nat) :
    (runInstruction (jump_indirect jmp_impl) c8cpu { mem := m, trace := [] }).map
        (fun r => (r.1.registers.pc, r.2.2.2))
      = some (m (m 1025 % 256 + m 1026 % 256 * 256) % 256
               + m ((m 1025 % 256 + 1) % 256 + m 1026 % 256 * 256) % 256 * 256, 5) := by
  rfl

/-- Claim C8 (confirmed): for every indirect JMP whose pointer operand ends
    in $FF (the fetched pointer low byte is 0xFF), the high byte of the jump
    target is read from the start of the same page — the pointer low byte
    wraps to 0x00 without a carry into the high byte — the resulting PC is
    built from those two bytes, and the instruction costs 5 cycles. -/
theorem c8_jmp_indirect_page_wrap (m : Nat → Nat) (h : m 1025 % 256 = 0xFF) :
    (runInstruction (jump_indirect jmp_impl) c8cpu { mem := m, trace := [] }).map
        (fun r => (r.1.registers.pc, r.2.2.2))
      = some (m (0xFF + m 1026 % 256 * 256) % 256
               + m (m 1026 % 256 * 256) % 256 * 256, 5) := by
  rw [jumpIndirectRun m, h]
  norm_num

/-- The memory image of the spec's seed scenario 4: `JMP ($20FF)` with the
    target low byte $34 at $20FF and the stray byte $56 at $2000. -/
def c8mem : Nat → Nat := fun a =>
  if a = 0x0401 then 0xFF else if a = 0x0402 then 0x20
  else if a = 0x20FF then 0x34 else if a = 0x2000 then 0x56 else 0x6C

/-- Witness for C8: instantiating the theorem on the seed scenario gives
    PC = $5634 (the page-wrapped target) at a cost of 5 cycles. -/
theorem c8_jmp_indirect_page_wrap_witness :
    (runInstruction (jump_indirect jmp_impl) c8cpu { mem := c8mem, trace := [] }).map
        (fun r => (r.1.registers.pc, r.2.2.2))
      = some (0x5634, 5) :=
  (c8_jmp_indirect_page_wrap c8mem (by decide)).trans (by decide)

end Rs6502

namespace Rs6502

/-! The assembler front end.  Source locations: source.rs `Loc` is a file
    handle plus a (line, column) pair; errors keep the location and the
    reason string (error.rs `SyntaxError::new` additionally renders the
    source line and a caret, a presentation detail determined by the pair we
    keep).  A raw token (token.rs `RawToken`) carries its kind, the source
    text of its span (`SourceRef::value()`) and its starting location. -/

structure Loc where
  line : Nat
  column : Nat
deriving Repr, DecidableEq

structure SyntaxError where
  loc : Loc
  reason : String
deriving Repr, DecidableEq

/-- error.rs `syntax_error`. -/
def syntaxError (loc : Loc) (reason : String) : SyntaxError := ⟨loc, reason⟩

/-- token.rs `RawTokenKind` (the lexer's token kinds). -/
inductive RawTokenKind where
  | PreProcessor
  | Directive
  | Identifier
  | Number (v : Nat)
  | CharLit (c : Char)
  | StringLit (s : String)
  | Add
  | Sub
  | Mul
  | Div
  | Mod
  | Not
  | And
  | Or
  | Xor
  | Shl
  | Shr
  | Comma
  | Colon
  | Hash
  | LParen
  | RParen
  | Newline
  | Whitespace
  | Comment
  | Error
deriving Repr, DecidableEq

structure RawToken where
  kind : RawTokenKind
  text : String
  loc : Loc
deriving Repr, DecidableEq

/-- error.rs `unexpected_token`. -/
def unexpectedToken (t : RawToken) (context : String) : SyntaxError :=
  ⟨t.loc,
   if context.length > 0 then
     "unexpected token '" ++ t.text ++ "' in " ++ context
   else
     "unexpected token '" ++ t.text ++ "'"⟩

/-- error.rs `expected_delimiter`. -/
def expectedDelimiter (closing : String) (opening : RawToken) (context : String) :
    SyntaxError :=
  ⟨opening.loc,
   if context.length > 0 then
     "expected '" ++ closing ++ "' to end opening '" ++ opening.text ++ "' in " ++ context
   else
     "expected '" ++ closing ++ "' to end opening '" ++ opening.text ++ "'"⟩

/-- preprocessor.rs `is_eol`: a comment or a newline. -/
def isEol (t : RawToken) : Bool :=
  t.kind == RawTokenKind.Comment || t.kind == RawTokenKind.Newline

def isNotEol (t : RawToken) : Bool := !(isEol t)

/-! The slice-consuming helpers of preprocessor.rs (`take_one`, `take_if`,
    `take_while`, `skip_whitespace`, `skip_eol`): mutation of a `&mut &[_]`
    becomes returning the rest of the list. -/

def takeOne : List RawToken → Option (RawToken × List RawToken)
  | [] => none
  | t :: rest => some (t, rest)

def takeIf (pred : RawToken → Bool) : List RawToken → Option (RawToken × List RawToken)
  | [] => none
  | t :: rest => if pred t then some (t, rest) else none

def takeWhile (pred : RawToken → Bool) : List RawToken → List RawToken × List RawToken
  | [] => ([], [])
  | t :: rest =>
    if pred t then
      let r := takeWhile pred rest
      (t :: r.1, r.2)
    else ([], t :: rest)

def skipWhitespace : List RawToken → List RawToken
  | [] => []
  | t :: rest =>
    if t.kind == RawTokenKind.Whitespace then skipWhitespace rest else t :: rest

/-- `skip_eol`: an optional comment, then an optional newline. -/
def skipEol (tokens : List RawToken) : List RawToken :=
  match takeIf (fun t => t.kind == RawTokenKind.Comment) tokens with
  | some (_, rest) =>
    ((takeIf (fun t => t.kind == RawTokenKind.Newline) rest).map Prod.snd).getD rest
  | none =>
    ((takeIf (fun t => t.kind == RawTokenKind.Newline) tokens).map Prod.snd).getD tokens

/-! Macro definitions (preprocessor.rs `Macro`, `MacroToken`, `MacroSet`,
    `MacroTable`).  A definition body marks parameter occurrences; a set per
    name holds an optional constant form and the function-like overloads
    keyed by arity; the table maps names to sets. -/

inductive MacroToken where
  | Parameter (t : RawToken)
  | Token (t : RawToken)
deriving Repr, DecidableEq

structure MacroSet where
  name : String
  constant : Option (List MacroToken)
  overloads : List (List String × List MacroToken)
deriving Repr, DecidableEq

def MacroSet.new (name : String) : MacroSet := ⟨name, none, []⟩

/-- `MacroSet::add` keeps `overloads` sorted by arity via binary search,
    replacing an existing definition of the same arity; modelled as ordered
    insertion, which computes the same sorted list. -/
def insertOverload (params : List String) (body : List MacroToken) :
    List (List String × List MacroToken) → List (List String × List MacroToken)
  | [] => [(params, body)]
  | (q, e) :: rest =>
    if params.length = q.length then (params, body) :: rest
    else if params.length < q.length then (params, body) :: (q, e) :: rest
    else (q, e) :: insertOverload params body rest

def MacroSet.add (s : MacroSet) (params : Option (List String))
    (body : List MacroToken) : MacroSet :=
  match params with
  | some p => { s with overloads := insertOverload p body s.overloads }
  | none => { s with constant := some body }

def MacroSet.hasConstant (s : MacroSet) : Bool := s.constant.isSome

def MacroSet.hasOverloads (s : MacroSet) : Bool := !s.overloads.isEmpty

def MacroSet.getConstant (s : MacroSet) : Option (List MacroToken) := s.constant

/-- `MacroSet::get_overload`: the first overload whose parameter count
    matches the argument count. -/
def MacroSet.getOverload (s : MacroSet) (args : Nat) :
    Option (List String × List MacroToken) :=
  s.overloads.find? (fun pe => pe.1.length == args)

/-- preprocessor.rs `MacroTable`, a map from names to sets; the HashMap
    becomes an association list (lookup order is irrelevant: keys are
    unique). -/
def MacroTable := List (String × MacroSet)

def MacroTable.get (t : MacroTable) (name : String) : Option MacroSet :=
  (List.find? (fun p => p.1 == name) t).map Prod.snd

def MacroTable.hasName (t : MacroTable) (name : String) : Bool :=
  (t.get name).isSome

/-- `MacroTable::add_macro`: `entry(name).or_insert(MacroSet::new).add(...)`. -/
def MacroTable.addMacro : MacroTable → String → Option (List String) →
    List MacroToken → MacroTable
  | [], name, params, body => [(name, (MacroSet.new name).add params body)]
  | (k, s) :: rest, name, params, body =>
    if k == name then (k, s.add params body) :: rest
    else (k, s) :: MacroTable.addMacro rest name params body

end Rs6502

namespace Rs6502

/-! Parsing `%define` (preprocessor.rs `preprocess_define`,
    `preprocess_define_const`, `preprocess_define_func`).  A parsed macro is
    the triple (name, optional parameter list, marked body). -/

def MacroDef := String × Option (List String) × List MacroToken

/-- `preprocess_define_const`: the body is everything to end of line; the
    trailing newline (or comment-newline) is consumed. -/
def preprocessDefineConst (name : String) (tokens : List RawToken) :
    Except SyntaxError (MacroDef × List RawToken) :=
  let ts := skipWhitespace tokens
  let bw := takeWhile isNotEol ts
  let rest := skipEol bw.2
  Except.ok ((name, none, bw.1.map MacroToken.Token), rest)

/-- The parameter-list loop of `preprocess_define_func`.  A repeated
    parameter name replaces the earlier one (remove then push); the fuel
    mirrors the loop, which consumes at least one token per iteration. -/
def parseParams : Nat → RawToken → List String → List RawToken →
    Except SyntaxError (List String × List RawToken)
  | 0, _, _, _ => Except.error ⟨⟨0, 0⟩, "preprocessor fuel exhausted"⟩
  | fuel + 1, lparen, params, tokens =>
    match takeIf isNotEol tokens with
    | none => Except.ok (params, tokens)
    | some (param, rest) =>
      if param.kind == RawTokenKind.RParen then Except.ok (params, rest)
      else if !(param.kind == RawTokenKind.Identifier) then
        Except.error (unexpectedToken param "macro parameter list")
      else
        let params2 := (params.filter (fun p => !(p == param.text))) ++ [param.text]
        match takeIf isNotEol (skipWhitespace rest) with
        | some (next, rest2) =>
          if next.kind == RawTokenKind.RParen then Except.ok (params2, rest2)
          else if next.kind == RawTokenKind.Comma then
            parseParams fuel lparen params2 (skipWhitespace rest2)
          else Except.error (unexpectedToken next "macro parameter list")
        | none => Except.error (expectedDelimiter ")" lparen "macro parameter list")

/-- `preprocess_define_func`: skip the '(', parse the parameters, take the
    body to end of line (consuming the ending newline), and mark body tokens
    whose text is a parameter name. -/
def preprocessDefineFunc (name : String) (tokens : List RawToken) :
    Except SyntaxError (MacroDef × List RawToken) :=
  match takeOne tokens with
  | none => Except.ok ((name, some [], []), [])
  | some (lparen, rest) =>
    match parseParams (rest.length + 1) lparen [] (skipWhitespace rest) with
    | Except.error e => Except.error e
    | Except.ok (params, rest2) =>
      let bw := takeWhile isNotEol (skipWhitespace rest2)
      let rest3 := ((takeOne bw.2).map Prod.snd).getD bw.2
      let body := bw.1.map (fun t =>
        if params.contains t.text then MacroToken.Parameter t else MacroToken.Token t)
      Except.ok ((name, some params, body), rest3)

/-- `preprocess_define`: dispatches on what follows the macro name — end of
    line (empty macro, newline left in place), whitespace (constant), '('
    (function) or anything else (error). -/
def preprocessDefine (tokens : List RawToken) :
    Except SyntaxError (Option MacroDef × List RawToken) :=
  let ts := skipWhitespace tokens
  match ts.head? with
  | none => Except.ok (none, skipEol ts)
  | some t0 =>
    if isEol t0 then Except.ok (none, skipEol ts)
    else
      match takeOne ts with
      | none => Except.ok (none, ts)
      | some (name, rest) =>
        if !(name.kind == RawTokenKind.Identifier) then
          Except.error (syntaxError name.loc "expected macro name")
        else
          match rest.head? with
          | some t2 =>
            if isEol t2 then Except.ok (some (name.text, none, []), rest)
            else if t2.kind == RawTokenKind.Whitespace then
              (preprocessDefineConst name.text rest).map (fun r => (some r.1, r.2))
            else if t2.kind == RawTokenKind.LParen then
              (preprocessDefineFunc name.text rest).map (fun r => (some r.1, r.2))
            else Except.error (syntaxError t2.loc "unexpected token")
          | none => Except.ok (some (name.text, none, []), rest)

/-! Macro expansion (preprocessor.rs `expand_macro` and helpers). -/

/-- The stateful predicate of `take_macro_arg`'s `take_while` closure: walk
    the tokens keeping a stack of open parens; an LParen is taken and pushed;
    an RParen matching an open paren is taken, an unmatched one stops; other
    tokens are taken while not end-of-line and not a comma.  Returns the
    taken tokens, the rest, and the parens left open. -/
def takeMacroArgLoop : List RawToken → List RawToken →
    List RawToken × List RawToken × List RawToken
  | [], parens => ([], [], parens)
  | t :: rest, parens =>
    if t.kind == RawTokenKind.LParen then
      let r := takeMacroArgLoop rest (t :: parens)
      (t :: r.1, r.2.1, r.2.2)
    else if t.kind == RawTokenKind.RParen then
      match parens with
      | [] => ([], t :: rest, [])
      | _ :: ps =>
        let r := takeMacroArgLoop rest ps
        (t :: r.1, r.2.1, r.2.2)
    else if isNotEol t && !(t.kind == RawTokenKind.Comma) then
      let r := takeMacroArgLoop rest parens
      (t :: r.1, r.2.1, r.2.2)
    else ([], t :: rest, parens)

/-- `take_macro_arg`: leading whitespace skipped, then the balanced-paren
    walk; an open paren left at end of line is an `expected ')'` error. -/
def takeMacroArg (tokens : List RawToken) :
    Except SyntaxError (List RawToken × List RawToken) :=
  let r := takeMacroArgLoop (skipWhitespace tokens) []
  match r.2.2 with
  | lp :: _ => Except.error (expectedDelimiter ")" lp "macro arg")
  | [] => Except.ok (r.1, r.2.1)

/-- `collect_macro_args`: comma-separated arguments up to the closing ')';
    end of line before the close is an `expected ')'` error.  (On exhausted
    input the source loops forever; the fuel makes that an artificial
    error.) -/
def collectMacroArgs : Nat → RawToken → List RawToken →
    Except SyntaxError (List (List RawToken) × List RawToken)
  | 0, _, _ => Except.error ⟨⟨0, 0⟩, "preprocessor fuel exhausted"⟩
  | fuel + 1, lparen, tokens =>
    match takeMacroArg tokens with
    | Except.error e => Except.error e
    | Except.ok (arg, rest) =>
      match takeOne rest with
      | some (next, rest2) =>
        if next.kind == RawTokenKind.Comma then
          (collectMacroArgs fuel lparen rest2).map (fun r => (arg :: r.1, r.2))
        else if next.kind == RawTokenKind.RParen then Except.ok ([arg], rest2)
        else if isEol next then Except.error (expectedDelimiter ")" lparen "macro call")
        else Except.error (unexpectedToken next "macro call")
      | none => (collectMacroArgs fuel lparen rest).map (fun r => (arg :: r.1, r.2))

/-- `expand_macro_const`: clone the body tokens (a constant body never holds
    a Parameter mark; the source panics if one appears). -/
def expandMacroConst (body : List MacroToken) : List RawToken :=
  body.map (fun mt => match mt with
    | MacroToken.Parameter t => t
    | MacroToken.Token t => t)

/-- `expand_macro_func`: body tokens are cloned; a parameter-marked token is
    replaced by the argument slice of the matching parameter. -/
def expandMacroFunc (args : List (List RawToken)) (params : List String)
    (body : List MacroToken) : List RawToken :=
  body.flatMap (fun mt => match mt with
    | MacroToken.Parameter dt =>
      match List.findIdx? (fun p => p == dt.text) params with
      | some i => args.getD i []
      | none => []
    | MacroToken.Token dt => [dt])

/-- `expand_macro_once`: a '(' right after the name with overloads present
    parses the arguments and selects the overload by arity (no match is a
    panic in the source, an error here); otherwise a constant body expands;
    otherwise nothing happens. -/
def expandMacroOnce (token : RawToken) (tokens : List RawToken) (defs : MacroSet) :
    Except SyntaxError (Option (List RawToken) × List RawToken) :=
  if (match tokens.head? with
      | some t => t.kind == RawTokenKind.LParen
      | none => false) && defs.hasOverloads then
    match takeOne tokens with
    | none => Except.ok (none, tokens)
    | some (lparen, rest) =>
      match collectMacroArgs (rest.length + 1) lparen rest with
      | Except.error e => Except.error e
      | Except.ok (args, rest2) =>
        match defs.getOverload args.length with
        | some (params, body) =>
          Except.ok (some (expandMacroFunc args params body), rest2)
        | none => Except.error ⟨token.loc, "invalid macro call"⟩
  else
    match defs.getConstant with
    | some body => Except.ok (some (expandMacroConst body), tokens)
    | none => Except.ok (none, tokens)

/-- The inner scan of `expand_macro`'s rescan loop: walk one working
    sequence, passing plain tokens through; at the first identifier that
    expands, return the passed-through tokens, the unconsumed rest of the
    sequence and the expansion. -/
def rescanSeq (defs : MacroTable) : List RawToken →
    Except SyntaxError (List RawToken × Option (List RawToken × List RawToken))
  | [] => Except.ok ([], none)
  | t :: rest =>
    if t.kind == RawTokenKind.Identifier && defs.hasName t.text then
      match defs.get t.text with
      | some ms =>
        match expandMacroOnce t rest ms with
        | Except.error e => Except.error e
        | Except.ok (some expanded, rest2) => Except.ok ([], some (rest2, expanded))
        | Except.ok (none, _) =>
          (rescanSeq defs rest).map (fun r => (t :: r.1, r.2))
      | none => (rescanSeq defs rest).map (fun r => (t :: r.1, r.2))
    else (rescanSeq defs rest).map (fun r => (t :: r.1, r.2))

/-- The working-stack loop of `expand_macro`: the top sequence is scanned;
    an expansion replaces the top with its unconsumed rest and pushes the
    expansion; a stack deeper than RECURSION_LIMIT = 10 is the
    recursion-limit error at the outermost call site. -/
def expandLoop (defs : MacroTable) (name : String) (errLoc : Loc) :
    Nat → List (List RawToken) → List RawToken → Except SyntaxError (List RawToken)
  | _, [], out => Except.ok out
  | 0, _ :: _, _ => Except.error ⟨⟨0, 0⟩, "preprocessor fuel exhausted"⟩
  | fuel + 1, temp :: stackRest, out =>
    if 10 < (temp :: stackRest).length then
      Except.error ⟨errLoc,
        "recursion limit reached during expansion of macro '" ++ name ++ "'"⟩
    else
      match rescanSeq defs temp with
      | Except.error e => Except.error e
      | Except.ok (outTokens, none) =>
        expandLoop defs name errLoc fuel stackRest (out ++ outTokens)
      | Except.ok (outTokens, some (rest, expanded)) =>
        expandLoop defs name errLoc fuel (expanded :: rest :: stackRest) (out ++ outTokens)

/-- `expand_macro`: one expansion of the named macro at `token`, then the
    fixed-point rescan with the working stack.  Returns the fully expanded
    tokens and the unconsumed input. -/
def expandMacro (token : RawToken) (tokens : List RawToken) (defs : MacroTable) :
    Except SyntaxError (List RawToken × List RawToken) :=
  match defs.get token.text with
  | none => Except.ok ([token], tokens)
  | some macroset =>
    match expandMacroOnce token tokens macroset with
    | Except.error e => Except.error e
    | Except.ok (none, rest) => Except.ok ([token], rest)
    | Except.ok (some expanded, rest) =>
      (expandLoop defs token.text token.loc 1000 [expanded] []).map
        (fun out => (out, rest))

/-- `preprocess_tokens`: the main loop — `%define` updates the table,
    other `%` directives are dropped, a defined identifier expands, comments
    are dropped, everything else passes through.  The fuel mirrors the loop,
    which consumes at least one token per iteration. -/
def preprocessTokens : Nat → List RawToken → MacroTable →
    Except SyntaxError (List RawToken)
  | _, [], _ => Except.ok []
  | 0, _ :: _, _ => Except.error ⟨⟨0, 0⟩, "preprocessor fuel exhausted"⟩
  | fuel + 1, token :: rest, defs =>
    match token.kind with
    | RawTokenKind.PreProcessor =>
      if token.text.drop 1 == "define" then
        match preprocessDefine rest with
        | Except.error e => Except.error e
        | Except.ok (some m, rest2) =>
          preprocessTokens fuel rest2 (defs.addMacro m.1 m.2.1 m.2.2)
        | Except.ok (none, rest2) => preprocessTokens fuel rest2 defs
      else preprocessTokens fuel rest defs
    | RawTokenKind.Identifier =>
      if defs.hasName token.text then
        match expandMacro token rest defs with
        | Except.error e => Except.error e
        | Except.ok (expanded, rest2) =>
          (preprocessTokens fuel rest2 defs).map (fun out => expanded ++ out)
      else (preprocessTokens fuel rest defs).map (fun out => token :: out)
    | RawTokenKind.Comment => preprocessTokens fuel rest defs
    | _ => (preprocessTokens fuel rest defs).map (fun out => token :: out)

/-- preprocessor.rs `preprocess`: install the predefined macros and run the
    main loop (which consumes at least one input token per iteration, so
    `length + 1` fuel is never exhausted). -/
def preprocess (tokens : List RawToken) (predefs : List MacroDef) :
    Except SyntaxError (List RawToken) :=
  let defs : MacroTable :=
    predefs.foldl (fun t m => t.addMacro m.1 m.2.1 m.2.2) ([] : MacroTable)
  preprocessTokens (tokens.length + 1) tokens defs

end Rs6502

namespace Rs6502

/-! The assembler (src/asm/src/assembler.rs) and the cooked tokens it
    consumes (token.rs `Token` / `TokenKind`). -/

inductive LitKind where
  | Number (v : Nat)
  | CharLit (c : Char)
  | StringLit (s : String)
deriving Repr, DecidableEq

inductive OpKind where
  | Add
  | Sub
  | Mul
  | Div
  | Mod
  | Not
  | And
  | Or
  | Xor
  | Shl
  | Shr
deriving Repr, DecidableEq

inductive TokenKind where
  | Directive
  | Identifier
  | Literal (l : LitKind)
  | Operator (o : OpKind)
  | Comma
  | Colon
  | Hash
  | LParen
  | RParen
  | Newline
deriving Repr, DecidableEq

/-- token.rs `TokenKind::from_raw_token`: whitespace, comments, the `%`
    directives and lexical errors map to none and are dropped. -/
def TokenKind.fromRawTokenKind : RawTokenKind → Option TokenKind
  | RawTokenKind.Directive => some TokenKind.Directive
  | RawTokenKind.Identifier => some TokenKind.Identifier
  | RawTokenKind.Number v => some (TokenKind.Literal (LitKind.Number v))
  | RawTokenKind.CharLit c => some (TokenKind.Literal (LitKind.CharLit c))
  | RawTokenKind.StringLit s => some (TokenKind.Literal (LitKind.StringLit s))
  | RawTokenKind.Add => some (TokenKind.Operator OpKind.Add)
  | RawTokenKind.Sub => some (TokenKind.Operator OpKind.Sub)
  | RawTokenKind.Mul => some (TokenKind.Operator OpKind.Mul)
  | RawTokenKind.Div => some (TokenKind.Operator OpKind.Div)
  | RawTokenKind.Mod => some (TokenKind.Operator OpKind.Mod)
  | RawTokenKind.Not => some (TokenKind.Operator OpKind.Not)
  | RawTokenKind.And => some (TokenKind.Operator OpKind.And)
  | RawTokenKind.Or => some (TokenKind.Operator OpKind.Or)
  | RawTokenKind.Xor => some (TokenKind.Operator OpKind.Xor)
  | RawTokenKind.Shl => some (TokenKind.Operator OpKind.Shl)
  | RawTokenKind.Shr => some (TokenKind.Operator OpKind.Shr)
  | RawTokenKind.Comma => some TokenKind.Comma
  | RawTokenKind.Colon => some TokenKind.Colon
  | RawTokenKind.Hash => some TokenKind.Hash
  | RawTokenKind.LParen => some TokenKind.LParen
  | RawTokenKind.RParen => some TokenKind.RParen
  | RawTokenKind.Newline => some TokenKind.Newline
  | _ => none

structure Token where
  kind : TokenKind
  text : String
  loc : Loc
deriving Repr, DecidableEq

/-- assembler.rs `Token::from_raw_token` as used by `process_raw_tokens`:
    the kind is cooked (dropping whitespace, comments and errors) and the
    source reference is carried over. -/
def Token.fromRawToken (t : RawToken) : Option Token :=
  (TokenKind.fromRawTokenKind t.kind).map (fun k => ⟨k, t.text, t.loc⟩)

/-- assembler.rs `IRCode`. -/
inductive IRCode where
  | Label (name : String)
  | Symbol (name : String)
  | Expression (tokens : List Token)
  | Value (v : Nat)
deriving Repr, DecidableEq

/-- assembler.rs `process_raw_tokens`. -/
def processRawTokens (raw : List RawToken) : List Token :=
  raw.filterMap Token.fromRawToken

/-- assembler.rs `assembler_pass_one`: the body is `Ok(vec![])` — pass 1 is
    an unimplemented stub in the source. -/
def assemblerPassOne (_tokens : List Token) : Except SyntaxError (List IRCode) :=
  Except.ok []

/-- assembler.rs `assembler_pass_two`: the body is `Ok(vec![])` — pass 2 is
    an unimplemented stub in the source. -/
def assemblerPassTwo (_ir : List IRCode) : Except SyntaxError (List Nat) :=
  Except.ok []

/-- assembler.rs `assemble`: cooks the tokens, runs the two passes, binds
    the emitted bytes to `bytes` — and then returns `Ok(vec![])`, discarding
    them. -/
def assemble (tokens : List RawToken) : Except SyntaxError (List Nat) :=
  match assemblerPassOne (processRawTokens tokens) with
  | Except.error e => Except.error e
  | Except.ok ir =>
    match assemblerPassTwo ir with
    | Except.error e => Except.error e
    | Except.ok _bytes => Except.ok []

end Rs6502

namespace Rs6502

/-- Claim C1 (code bug): `assemble` must return the final byte image emitted
    by pass 2.  In the source, `assembler_pass_one` and `assembler_pass_two`
    are stubs returning `Ok(vec![])` and `assemble` binds pass 2's result to
    `bytes` only to return `Ok(vec![])` itself: every program — including
    one whose `.db` directive lists literal bytes — assembles to the empty
    byte image. -/
theorem c1_assemble_always_returns_empty_image (tokens : List RawToken) :
    assemble tokens = Except.ok [] := by
  rfl

/-- Claim C9 (confirmed): expanding the self-referential constant macro of
    `%define X X` followed by a use of `X` re-scans past the working-stack
    depth limit of 10 and preprocessing stops with the syntax error
    `recursion limit reached during expansion of macro 'X'` located at the
    outermost expansion site (the location of the `X` use on the second
    line), whatever the source locations of the tokens are.  The expansion
    loop is an explicit working stack run for a bounded number of
    iterations, not unbounded recursion. -/
theorem c9_recursion_limit_error_at_call_site (l1 l2 l3 l4 l5 l6 l7 l8 : Loc) :
    preprocess
      [⟨RawTokenKind.PreProcessor, "%define", l1⟩,
       ⟨RawTokenKind.Whitespace, " ", l2⟩,
       ⟨RawTokenKind.Identifier, "X", l3⟩,
       ⟨RawTokenKind.Whitespace, " ", l4⟩,
       ⟨RawTokenKind.Identifier, "X", l5⟩,
       ⟨RawTokenKind.Newline, "\n", l6⟩,
       ⟨RawTokenKind.Identifier, "X", l7⟩,
       ⟨RawTokenKind.Newline, "\n", l8⟩] []
      = Except.error ⟨l7, "recursion limit reached during expansion of macro 'X'"⟩ := by
  rfl

/-- The raw token stream of the spec's seed scenario 5:
    line 1 `%define add(a)    ((a) + 1)`,
    line 2 `%define add(a, b) (add(a) + b)`,
    line 3 `add(2, 3)`. -/
def c10toks : List RawToken :=
  [⟨RawTokenKind.PreProcessor, "%define", ⟨1, 1⟩⟩,
   ⟨RawTokenKind.Whitespace, " ", ⟨1, 8⟩⟩,
   ⟨RawTokenKind.Identifier, "add", ⟨1, 9⟩⟩,
   ⟨RawTokenKind.LParen, "(", ⟨1, 12⟩⟩,
   ⟨RawTokenKind.Identifier, "a", ⟨1, 13⟩⟩,
   ⟨RawTokenKind.RParen, ")", ⟨1, 14⟩⟩,
   ⟨RawTokenKind.Whitespace, "    ", ⟨1, 15⟩⟩,
   ⟨RawTokenKind.LParen, "(", ⟨1, 19⟩⟩,
   ⟨RawTokenKind.LParen, "(", ⟨1, 20⟩⟩,
   ⟨RawTokenKind.Identifier, "a", ⟨1, 21⟩⟩,
   ⟨RawTokenKind.RParen, ")", ⟨1, 22⟩⟩,
   ⟨RawTokenKind.Whitespace, " ", ⟨1, 23⟩⟩,
   ⟨RawTokenKind.Add, "+", ⟨1, 24⟩⟩,
   ⟨RawTokenKind.Whitespace, " ", ⟨1, 25⟩⟩,
   ⟨RawTokenKind.Number 1, "1", ⟨1, 26⟩⟩,
   ⟨RawTokenKind.RParen, ")", ⟨1, 27⟩⟩,
   ⟨RawTokenKind.Newline, "\n", ⟨1, 28⟩⟩,
   ⟨RawTokenKind.PreProcessor, "%define", ⟨2, 1⟩⟩,
   ⟨RawTokenKind.Whitespace, " ", ⟨2, 8⟩⟩,
   ⟨RawTokenKind.Identifier, "add", ⟨2, 9⟩⟩,
   ⟨RawTokenKind.LParen, "(", ⟨2, 12⟩⟩,
   ⟨RawTokenKind.Identifier, "a", ⟨2, 13⟩⟩,
   ⟨RawTokenKind.Comma, ",", ⟨2, 14⟩⟩,
   ⟨RawTokenKind.Whitespace, " ", ⟨2, 15⟩⟩,
   ⟨RawTokenKind.Identifier, "b", ⟨2, 16⟩⟩,
   ⟨RawTokenKind.RParen, ")", ⟨2, 17⟩⟩,
   ⟨RawTokenKind.Whitespace, " ", ⟨2, 18⟩⟩,
   ⟨RawTokenKind.LParen, "(", ⟨2, 19⟩⟩,
   ⟨RawTokenKind.Identifier, "add", ⟨2, 20⟩⟩,
   ⟨RawTokenKind.LParen, "(", ⟨2, 23⟩⟩,
   ⟨RawTokenKind.Identifier, "a", ⟨2, 24⟩⟩,
   ⟨RawTokenKind.RParen, ")", ⟨2, 25⟩⟩,
   ⟨RawTokenKind.Whitespace, " ", ⟨2, 26⟩⟩,
   ⟨RawTokenKind.Add, "+", ⟨2, 27⟩⟩,
   ⟨RawTokenKind.Whitespace, " ", ⟨2, 28⟩⟩,
   ⟨RawTokenKind.Identifier, "b", ⟨2, 29⟩⟩,
   ⟨RawTokenKind.RParen, ")", ⟨2, 30⟩⟩,
   ⟨RawTokenKind.Newline, "\n", ⟨2, 31⟩⟩,
   ⟨RawTokenKind.Identifier, "add", ⟨3, 1⟩⟩,
   ⟨RawTokenKind.LParen, "(", ⟨3, 4⟩⟩,
   ⟨RawTokenKind.Number 2, "2", ⟨3, 5⟩⟩,
   ⟨RawTokenKind.Comma, ",", ⟨3, 6⟩⟩,
   ⟨RawTokenKind.Whitespace, " ", ⟨3, 7⟩⟩,
   ⟨RawTokenKind.Number 3, "3", ⟨3, 8⟩⟩,
   ⟨RawTokenKind.RParen, ")", ⟨3, 9⟩⟩,
   ⟨RawTokenKind.Newline, "\n", ⟨3, 10⟩⟩]

/-- Claim C10 (confirmed): with the overloads `%define add(a)    ((a) + 1)`
    and `%define add(a, b) (add(a) + b)`, preprocessing `add(2, 3)` selects
    the two-argument overload by arity, substitutes the argument slices,
    re-scans (expanding the inner one-argument `add(2)`) and yields exactly
    the token sequence `(((2) + 1) + 3)`: the output kinds and texts are
    those tokens (whitespace tokens are the single spaces between them,
    removed when the stream is cooked for the assembler) followed by the
    line's newline, and the concatenated texts read `(((2) + 1) + 3)\n`. -/
theorem c10_macro_overload_expansion :
    (preprocess c10toks []).map (fun l => l.map (fun t => (t.kind, t.text)))
      = Except.ok
        [(RawTokenKind.LParen, "("), (RawTokenKind.LParen, "("),
         (RawTokenKind.LParen, "("), (RawTokenKind.Number 2, "2"),
         (RawTokenKind.RParen, ")"), (RawTokenKind.Whitespace, " "),
         (RawTokenKind.Add, "+"), (RawTokenKind.Whitespace, " "),
         (RawTokenKind.Number 1, "1"), (RawTokenKind.RParen, ")"),
         (RawTokenKind.Whitespace, " "), (RawTokenKind.Add, "+"),
         (RawTokenKind.Whitespace, " "), (RawTokenKind.Number 3, "3"),
         (RawTokenKind.RParen, ")"), (RawTokenKind.Newline, "\n")] := by
  rfl

end Rs6502
